import Mathlib

/-!
Shallow embedding of the stock-and-ledger operations of the shop back-end
(apps/inventory and apps/sale and apps/expense), translated from the Django
views, serializers and models.

Conventions of the embedding:
* Database decimal columns (quantities, prices, amounts) are modelled as `Rat`:
  the Python code computes with `decimal.Decimal`, which is exact on every
  arithmetic operation the embedded code performs.
* Database tables are lists of rows; primary-key lookup is `List.find?` on the
  id field, and a by-primary-key UPDATE rewrites the first matching row.
* Each request handler becomes a function `DB → inputs → DB × Bool`, returning
  the state as committed by the surrounding `transaction.atomic` block together
  with a success flag.  Crucially, the handlers catch `ValidationError` (and
  generic exceptions) INSIDE the atomic block and return an error response
  normally, so the transaction still commits whatever was already written:
  the embedding therefore returns the partially mutated state on those paths,
  exactly as the code does, instead of rolling back.
* Tenant (shop) scoping, audit columns, dates and free-text fields are dropped:
  no claim mentions them, and they do not feed back into any quantity or
  amount.  The `reference_number` strings written on stock movements are
  modelled by the enumeration `RefTag` ('INITIAL', the ADJ-timestamp reference,
  and a purchase-order number respectively).
-/

/- The library marks rational arithmetic irreducible; re-open it so that
concrete states evaluate under `decide`/`rfl`. -/
unseal Rat.add Rat.sub Rat.mul Rat.inv Rat.ofScientific

/-- `movement_type` choices of `StockMovement` (apps/inventory/models.py). -/
inductive MovementType
  | IN
  | OUT
  | ADJ
  | RET
deriving DecidableEq, Repr

/-- The `reference_number` written on a `StockMovement`, reduced to its three
source shapes: the literal 'INITIAL', an `ADJ-<timestamp>` string, and a
purchase-order number. -/
inductive RefTag
  | initialTag
  | adjustTag
  | orderTag
deriving DecidableEq, Repr

/-- Row of `Product` (only the fields the embedded operations read). -/
structure Product where
  pid : Nat
  costPrice : Rat
deriving DecidableEq, Repr

/-- Row of `Stock`: one-to-one with `Product`, current on-hand quantity. -/
structure Stock where
  pid : Nat
  quantity : Rat
deriving DecidableEq, Repr

/-- Row of `StockMovement`. -/
structure StockMovement where
  pid : Nat
  movementType : MovementType
  quantity : Rat
  unitPrice : Rat
  referenceNumber : RefTag
deriving DecidableEq, Repr

/-- `payment_status` choices of `Sale` (apps/sale/models.py). -/
inductive PayStatus
  | PENDING
  | PARTIAL
  | PAID
  | OVERDUE
deriving DecidableEq, Repr

/-- Row of `SaleItem`.  `subtotal`, `discount_amount` and `total` are model
properties computed from these stored fields. -/
structure SaleItem where
  pid : Nat
  quantity : Rat
  unitPrice : Rat
  discountPercentage : Rat
deriving DecidableEq, Repr

/-- `SaleItem.subtotal` property: `quantity * unit_price`. -/
def SaleItem.subtotal (it : SaleItem) : Rat :=
  it.quantity * it.unitPrice

/-- `SaleItem.discount_amount` property: `subtotal * (discount_percentage / 100)`. -/
def SaleItem.discountAmount (it : SaleItem) : Rat :=
  it.subtotal * (it.discountPercentage / 100)

/-- `SaleItem.total` property: `subtotal - discount_amount`. -/
def SaleItem.totalAmount (it : SaleItem) : Rat :=
  it.subtotal - it.discountAmount

/-- Row of `Sale`, with its items inlined (a `SaleItem` row exists exactly as
long as its sale does; deleting the sale deletes the items). -/
structure Sale where
  saleId : Nat
  subtotal : Rat
  discountAmount : Rat
  taxAmount : Rat
  total : Rat
  paidAmount : Rat
  paymentStatus : PayStatus
  items : List SaleItem
deriving DecidableEq, Repr

/-- `Sale.balance_due` property: `total - paid_amount`. -/
def Sale.balanceDue (s : Sale) : Rat :=
  s.total - s.paidAmount

/-- Row of `Payment` (fields the ledger reads). -/
structure Payment where
  saleId : Nat
  amount : Rat
deriving DecidableEq, Repr

/-- Row of `SalesReturnItem`: `sale_item` is dereferenced to the product id;
`quantity` and `unit_price` are the stored columns. -/
structure SalesReturnItem where
  pid : Nat
  quantity : Rat
  unitPrice : Rat
deriving DecidableEq, Repr

/-- Row of `SalesReturn` with its items inlined.  Its monetary total columns
are not modelled: no embedded operation ever reads them back. -/
structure SalesReturn where
  returnId : Nat
  saleId : Nat
  items : List SalesReturnItem
deriving DecidableEq, Repr

/-- `status` choices of `PurchaseOrder`. -/
inductive POStatus
  | DRAFT
  | PENDING
  | ORDERED
  | RECEIVED
  | CANCELLED
deriving DecidableEq, Repr

/-- Row of `PurchaseOrderItem`. -/
structure POItem where
  itemId : Nat
  pid : Nat
  quantity : Rat
  unitPrice : Rat
  receivedQuantity : Rat
deriving DecidableEq, Repr

/-- Row of `PurchaseOrder` with its items inlined. -/
structure PurchaseOrder where
  poId : Nat
  status : POStatus
  subtotal : Rat
  taxAmount : Rat
  total : Rat
  items : List POItem
deriving DecidableEq, Repr

/-- The mutable database state shared by the embedded request handlers. -/
structure DB where
  products : List Product
  stocks : List Stock
  movements : List StockMovement
  sales : List Sale
  payments : List Payment
  salesReturns : List SalesReturn
  pos : List PurchaseOrder
deriving DecidableEq, Repr

/-- The empty database. -/
def DB.empty : DB :=
  ⟨[], [], [], [], [], [], []⟩

/-- Primary-key lookup in `Stock` (the `product.stock` one-to-one accessor). -/
def findStock (l : List Stock) (pid : Nat) : Option Stock :=
  l.find? (fun s => s.pid == pid)

/-- The on-hand quantity of a product, `0` when it has no `Stock` row.  Used
only to state ledger invariants; the operations themselves fail where the code
would raise on a missing row. -/
def stockQty (l : List Stock) (pid : Nat) : Rat :=
  match findStock l pid with
  | some s => s.quantity
  | none => 0

/-- By-primary-key UPDATE of a stock row's quantity. -/
def setStockQty (l : List Stock) (pid : Nat) (q : Rat) : List Stock :=
  l.map (fun s => if s.pid == pid then { s with quantity := q } else s)

/-- `Stock.objects.get_or_create(product=..., defaults={'quantity': 0})`
followed by `quantity = F('quantity') + d`: add `d` to the product's stock,
creating the row at `d` when absent. -/
def incStock (l : List Stock) (pid : Nat) (d : Rat) : List Stock :=
  match findStock l pid with
  | some s => setStockQty l pid (s.quantity + d)
  | none => l ++ [⟨pid, d⟩]

/-- Primary-key lookup in `Product`. -/
def findProduct (l : List Product) (pid : Nat) : Option Product :=
  l.find? (fun p => p.pid == pid)

/-- Primary-key lookup in `Sale`. -/
def findSale (l : List Sale) (sid : Nat) : Option Sale :=
  l.find? (fun s => s.saleId == sid)

/-- Primary-key lookup in `PurchaseOrder`. -/
def findPO (l : List PurchaseOrder) (poId : Nat) : Option PurchaseOrder :=
  l.find? (fun po => po.poId == poId)

/-- The signed contribution of a movement row to a product's audited quantity:
IN and RET increase, OUT decreases, and ADJ already stores a signed delta
(spec, StockMovement description). -/
def signedQty (m : StockMovement) : Rat :=
  match m.movementType with
  | .IN => m.quantity
  | .RET => m.quantity
  | .OUT => -m.quantity
  | .ADJ => m.quantity

/-- Sum of the signed quantities of all movement rows of one product. -/
def movementSum (l : List StockMovement) (pid : Nat) : Rat :=
  ((l.filter (fun m => m.pid == pid)).map signedQty).sum

/-- `ProductListCreateView.create` (apps/inventory/views.py): create the
product; when the supplied `initial_stock` is truthy (nonzero) also create its
`Stock` row at that quantity and a single IN movement with
`reference_number='INITIAL'` and `unit_price=product.cost_price`. -/
def createProduct (db : DB) (pid : Nat) (costPrice initialStock : Rat) : DB :=
  if initialStock ≠ 0 then
    { db with
        products := db.products ++ [⟨pid, costPrice⟩],
        stocks := db.stocks ++ [⟨pid, initialStock⟩],
        movements := db.movements ++
          [⟨pid, .IN, initialStock, costPrice, .initialTag⟩] }
  else { db with products := db.products ++ [⟨pid, costPrice⟩] }

/-- `StockAdjustmentView.post` (apps/inventory/views.py): `adjustment` of `0`
fails the `all([...])` presence check; a missing product is a 404; otherwise
the stock row is created at 0 if absent, `adjustment` is added unconditionally
(no negativity guard), and one ADJ movement is appended recording the signed
`adjustment` at `unit_price=product.cost_price`. -/
def adjustStock (db : DB) (pid : Nat) (adjustment : Rat) : DB × Bool :=
  if adjustment = 0 then (db, false)
  else
    match findProduct db.products pid with
    | none => (db, false)
    | some p =>
        ({ db with
            stocks := incStock db.stocks pid adjustment,
            movements := db.movements ++
              [⟨pid, .ADJ, adjustment, p.costPrice, .adjustTag⟩] }, true)

/-- One line item of a sale-creation request. -/
structure SaleItemInput where
  pid : Nat
  quantity : Rat
  unitPrice : Rat
  discountPercentage : Rat
deriving DecidableEq, Repr

/-- A sale-creation request body. -/
structure SaleInput where
  saleId : Nat
  items : List SaleItemInput
  discountAmount : Rat
deriving DecidableEq, Repr

/-- `SaleItemCreateSerializer.validate` (apps/sale/serializers.py): the item
passes only when the product's stock row exists (a missing one-to-one raises)
and `product.stock.quantity < quantity` does not hold. -/
def validSaleItem (stocks : List Stock) (it : SaleItemInput) : Bool :=
  match findStock stocks it.pid with
  | some s => !(s.quantity < it.quantity)
  | none => false

/-- The stored `SaleItem` row built from a request line. -/
def mkSaleItem (it : SaleItemInput) : SaleItem :=
  ⟨it.pid, it.quantity, it.unitPrice, it.discountPercentage⟩

/-- The post-`serializer.save()` stock loop of `SaleListCreateView.create`:
for each item in order, `stock.quantity -= item.quantity`, raising (without
saving that row) when the result is negative.  The raise is caught inside the
atomic block, so the rows already written stay committed: on failure the
partially decremented list is returned. -/
def saleStockLoop : List Stock → List SaleItem → List Stock × Bool
  | stocks, [] => (stocks, true)
  | stocks, it :: rest =>
      match findStock stocks it.pid with
      | none => (stocks, false)
      | some s =>
          if s.quantity - it.quantity < 0 then (stocks, false)
          else saleStockLoop (setStockQty stocks it.pid (s.quantity - it.quantity)) rest

/-- `SaleListCreateView.create` together with `SaleCreateSerializer.create`:
validation happens entirely before any write; on success the sale header and
items are inserted with `subtotal = Σ item.total`, `tax_amount = 0` (the 10%
line is commented out in the source), `total = subtotal + tax_amount -
discount_amount`, and then the per-item stock decrement loop runs.  No
`StockMovement` row is written anywhere on this path. -/
def createSale (db : DB) (inp : SaleInput) : DB × Bool :=
  if inp.items.all (validSaleItem db.stocks) then
    let items := inp.items.map mkSaleItem
    let sub := (items.map SaleItem.totalAmount).sum
    let sale : Sale :=
      { saleId := inp.saleId
        subtotal := sub
        discountAmount := inp.discountAmount
        taxAmount := 0
        total := sub + 0 - inp.discountAmount
        paidAmount := 0
        paymentStatus := .PENDING
        items := items }
    let db1 := { db with sales := db.sales ++ [sale] }
    let r := saleStockLoop db1.stocks items
    ({ db1 with stocks := r.1 }, r.2)
  else (db, false)

/-- By-primary-key UPDATE of a sale row. -/
def updateSale (l : List Sale) (sid : Nat) (s' : Sale) : List Sale :=
  l.map (fun s => if s.saleId == sid then s' else s)

/-- The status recomputation in `PaymentListCreateView.create`: `PAID` when
`paid_amount >= total`, else `PARTIAL` when `paid_amount > 0`, else the status
is left as it was. -/
def payStatusAfter (total paid : Rat) (old : PayStatus) : PayStatus :=
  if total ≤ paid then .PAID
  else if 0 < paid then .PARTIAL
  else old

/-- `PaymentListCreateView.create` with `PaymentCreateSerializer.validate`:
the only amount check is `amount > sale.balance_due` (there is no positivity
check); on success the payment row is inserted, `sale.paid_amount += amount`,
and the status is recomputed. -/
def createPayment (db : DB) (sid : Nat) (amount : Rat) : DB × Bool :=
  match findSale db.sales sid with
  | none => (db, false)
  | some s =>
      if s.balanceDue < amount then (db, false)
      else
        let paid := s.paidAmount + amount
        let s' := { s with
          paidAmount := paid
          paymentStatus := payStatusAfter s.total paid s.paymentStatus }
        ({ db with
            sales := updateSale db.sales sid s',
            payments := db.payments ++ [⟨sid, amount⟩] }, true)

/-- One line of a sales-return request: the referenced sale item (by position
in the sale), the returned quantity and the submitted unit price. -/
structure ReturnItemInput where
  itemIdx : Nat
  quantity : Rat
  unitPrice : Rat
deriving DecidableEq, Repr

/-- `SalesReturnItemCreateSerializer.validate`: the referenced sale item must
exist and `quantity > sale_item.quantity` must not hold. -/
def validReturnItem (s : Sale) (ri : ReturnItemInput) : Bool :=
  match s.items[ri.itemIdx]? with
  | some si => !(si.quantity < ri.quantity)
  | none => false

/-- The post-save stock loop shared by sales-return creation and sale
deletion: `stock.quantity += quantity` per line, raising on a missing stock
row; the exception is caught inside the atomic block, so earlier increments
stay committed. -/
def incStockLoop : List Stock → List (Nat × Rat) → List Stock × Bool
  | stocks, [] => (stocks, true)
  | stocks, (pid, q) :: rest =>
      match findStock stocks pid with
      | none => (stocks, false)
      | some s => incStockLoop (setStockQty stocks pid (s.quantity + q)) rest

/-- `SalesReturnListCreateView.create` with `SalesReturnCreateSerializer`:
after validation the return and its items are inserted, then each returned
quantity is added back to the product's stock.  No RET `StockMovement` row is
written. -/
def createSalesReturn (db : DB) (rid sid : Nat) (items : List ReturnItemInput) :
    DB × Bool :=
  match findSale db.sales sid with
  | none => (db, false)
  | some s =>
      if items.all (validReturnItem s) then
        let retItems := items.filterMap (fun ri =>
          (s.items[ri.itemIdx]?).map (fun si =>
            (⟨si.pid, ri.quantity, ri.unitPrice⟩ : SalesReturnItem)))
        let db1 := { db with salesReturns := db.salesReturns ++ [SalesReturn.mk rid sid retItems] }
        let r :=
          incStockLoop db1.stocks (retItems.map (fun ri => (ri.pid, ri.quantity)))
        ({ db1 with stocks := r.1 }, r.2)
      else (db, false)

/-- `SaleDeleteView.destroy` (apps/sale/views.py): delete the sale's returns
and their items, its payments, its items and the sale itself, then add each
deleted sale item's quantity back to its product's stock.  No `StockMovement`
row is written or removed. -/
def deleteSale (db : DB) (sid : Nat) : DB × Bool :=
  match findSale db.sales sid with
  | none => (db, false)
  | some s =>
      let db1 := { db with
        salesReturns := db.salesReturns.filter (fun r => r.saleId ≠ sid),
        payments := db.payments.filter (fun p => p.saleId ≠ sid),
        sales := db.sales.filter (fun x => x.saleId ≠ sid) }
      let r :=
        incStockLoop db1.stocks (s.items.map (fun it => (it.pid, it.quantity)))
      ({ db1 with stocks := r.1 }, r.2)

/-- One line item of a purchase-order-creation request. -/
structure POItemInput where
  itemId : Nat
  pid : Nat
  quantity : Rat
  unitPrice : Rat
deriving DecidableEq, Repr

/-- `PurchaseOrderListCreateView.create`: the order is created in the default
`DRAFT` status with `received_quantity = 0` per item, `subtotal = Σ quantity *
unit_price`, `tax_amount = subtotal * Decimal('0.1')` and `total = subtotal +
tax_amount`.  An empty item list is rejected before any write is kept visible
(the embedding returns the unchanged state). -/
def createPurchaseOrder (db : DB) (poId : Nat) (items : List POItemInput) :
    DB × Bool :=
  if items.isEmpty then (db, false)
  else
    let rows := items.map (fun it => POItem.mk it.itemId it.pid it.quantity it.unitPrice 0)
    let sub := (items.map (fun it => it.quantity * it.unitPrice)).sum
    let po : PurchaseOrder :=
      { poId := poId
        status := .DRAFT
        subtotal := sub
        taxAmount := sub * (1 / 10)
        total := sub + sub * (1 / 10)
        items := rows }
    ({ db with pos := db.pos ++ [po] }, true)

/-- By-primary-key UPDATE of a purchase order: rewrite the first row with the
given id through `f`. -/
def updatePO (l : List PurchaseOrder) (poId : Nat)
    (f : PurchaseOrder → PurchaseOrder) : List PurchaseOrder :=
  match l with
  | [] => []
  | po :: rest =>
      if po.poId == poId then f po :: rest
      else po :: updatePO rest poId f

/-- `PurchaseOrderStatusUpdateView.patch`: any requested status is accepted
unless the order is already `RECEIVED` or `CANCELLED`, which are rejected
without a write. -/
def updatePOStatus (db : DB) (poId : Nat) (new : POStatus) : DB × Bool :=
  match findPO db.pos poId with
  | none => (db, false)
  | some po =>
      if po.status = .RECEIVED then (db, false)
      else if po.status = .CANCELLED then (db, false)
      else ({ db with pos := updatePO db.pos poId (fun p => { p with status := new }) }, true)

/-- One line of a receiving request. -/
structure RecvLine where
  itemId : Nat
  receivedQuantity : Rat
deriving DecidableEq, Repr

/-- By-primary-key UPDATE of a purchase-order item: add `q` to the
`received_quantity` of the first item with the given id. -/
def recvItems (items : List POItem) (iid : Nat) (q : Rat) : List POItem :=
  match items with
  | [] => []
  | it :: rest =>
      if it.itemId == iid then { it with receivedQuantity := it.receivedQuantity + q } :: rest
      else it :: recvItems rest iid q

/-- Lookup of a `PurchaseOrderItem` by id within one purchase order. -/
def findPOItem (pos : List PurchaseOrder) (poId iid : Nat) : Option POItem :=
  (findPO pos poId).bind (fun po => po.items.find? (fun it => it.itemId == iid))

/-- The per-line loop of `ReceivePurchaseOrderView.post`.  Each line in order:
look up the item (a miss raises), reject when `received_quantity >
item.quantity - item.received_quantity`, else add the quantity to the
product's stock (creating the row at 0 if absent), append one IN movement at
`unit_price = item.unit_price` referencing the PO number, and add the quantity
to the item's `received_quantity`.  A raise is caught inside the atomic block:
the lines already processed stay committed and the state reached so far is
returned with the failure flag. -/
def receiveLoop : DB → Nat → List RecvLine → DB × Bool
  | db, _, [] => (db, true)
  | db, poId, l :: rest =>
      match findPOItem db.pos poId l.itemId with
      | none => (db, false)
      | some item =>
          if item.quantity - item.receivedQuantity < l.receivedQuantity then (db, false)
          else
            let db1 := { db with
              stocks := incStock db.stocks item.pid l.receivedQuantity,
              movements := db.movements ++
                [⟨item.pid, .IN, l.receivedQuantity, item.unitPrice, .orderTag⟩],
              pos := updatePO db.pos poId (fun po =>
                { po with items := recvItems po.items l.itemId l.receivedQuantity }) }
            receiveLoop db1 poId rest

/-- `ReceivePurchaseOrderView.post`: an empty line list is rejected up front;
a `RECEIVED` or `CANCELLED` order is rejected before any write; otherwise the
per-line loop runs and, only when every line succeeded, the order is marked
`RECEIVED` when every item now has `received_quantity >= quantity`. -/
def receivePO (db : DB) (poId : Nat) (lines : List RecvLine) : DB × Bool :=
  if lines.isEmpty then (db, false)
  else
    match findPO db.pos poId with
    | none => (db, false)
    | some po =>
        if po.status = .RECEIVED then (db, false)
        else if po.status = .CANCELLED then (db, false)
        else
          let r := receiveLoop db poId lines
          if r.2 then
            match findPO r.1.pos poId with
            | some po1 =>
                if po1.items.all (fun it => it.quantity ≤ it.receivedQuantity) then
                  let pos' := updatePO r.1.pos poId (fun p => { p with status := .RECEIVED })
                  ({ r.1 with pos := pos' }, true)
                else (r.1, true)
            | none => (r.1, true)
          else (r.1, false)

/-- `status` choices of `Expense` (apps/expense/models.py). -/
inductive ExpStatus
  | PENDING
  | PAID
  | CANCELLED
  | PARTIALLY_PAID
deriving DecidableEq, Repr

/-- Row of `Expense` (the fields the payment flow reads and writes). -/
structure Expense where
  amount : Rat
  taxAmount : Rat
  totalAmount : Rat
  paidAmount : Rat
  status : ExpStatus
deriving DecidableEq, Repr

/-- Row of `ExpensePayment`. -/
structure ExpensePayment where
  amount : Rat
deriving DecidableEq, Repr

/-- The status recomputation in `ExpensePayment.save`: `PAID` when the summed
payments reach `total_amount`, else `PARTIALLY_PAID` when positive, else the
status is left as it was. -/
def expStatusAfter (total paid : Rat) (old : ExpStatus) : ExpStatus :=
  if total ≤ paid then .PAID
  else if 0 < paid then .PARTIALLY_PAID
  else old

/-- `ExpensePaymentCreateView.create` with
`ExpensePaymentCreateSerializer.validate` and `ExpensePayment.save`: reject
when `expense.paid_amount + amount > expense.total_amount`; otherwise insert
the payment, recompute `paid_amount` as the sum of all of the expense's
payments, recompute the status, and re-save the expense (whose `save`
recomputes `total_amount = amount + tax_amount`). -/
def applyExpensePayment (e : Expense) (pays : List ExpensePayment) (amount : Rat) :
    (Expense × List ExpensePayment) × Bool :=
  if e.totalAmount < e.paidAmount + amount then ((e, pays), false)
  else
    let pays' := pays ++ [⟨amount⟩]
    let totalPaid := (pays'.map (fun p => p.amount)).sum
    (({ e with
        paidAmount := totalPaid
        status := expStatusAfter e.totalAmount totalPaid e.status
        totalAmount := e.amount + e.taxAmount }, pays'), true)

/-! ## Helper lemmas about row lookup and update -/

/-- A stock row returned by lookup carries the looked-up product id. -/
theorem findStock_pid {l : List Stock} {p : Nat} {s : Stock}
    (h : findStock l p = some s) : s.pid = p := by
  unfold findStock at h
  simpa using List.find?_some h

/-- A sale row returned by lookup carries the looked-up id. -/
theorem findSale_sid {l : List Sale} {sid : Nat} {s : Sale}
    (h : findSale l sid = some s) : s.saleId = sid := by
  unfold findSale at h
  simpa using List.find?_some h

/-- A purchase-order row returned by lookup carries the looked-up id. -/
theorem findPO_poId {l : List PurchaseOrder} {poId : Nat} {po : PurchaseOrder}
    (h : findPO l poId = some po) : po.poId = poId := by
  unfold findPO at h
  simpa using List.find?_some h

/-- Updating one product's stock quantity rewrites the lookup result pointwise. -/
theorem findStock_setStockQty (l : List Stock) (pid : Nat) (q : Rat) (p : Nat) :
    findStock (setStockQty l pid q) p =
      (findStock l p).map
        (fun s => if s.pid == pid then { s with quantity := q } else s) := by
  unfold findStock setStockQty
  rw [List.find?_map]
  have hfun : ((fun s : Stock => s.pid == p) ∘ fun s =>
      if (s.pid == pid) = true then { s with quantity := q } else s) =
      (fun s : Stock => s.pid == p) := by
    funext s
    by_cases h : s.pid = pid <;> simp [h]
  rw [hfun]

/-- Lookup distributes over appending a single stock row. -/
theorem findStock_append_one (l : List Stock) (s : Stock) (p : Nat) :
    findStock (l ++ [s]) p =
      (findStock l p).or (if s.pid == p then some s else none) := by
  unfold findStock
  rw [List.find?_append]
  congr 1
  by_cases h : s.pid == p <;> simp [h]

/-- `incStock` adds exactly its delta to the target product's quantity and
leaves every other product's quantity unchanged. -/
theorem stockQty_incStock (l : List Stock) (pid : Nat) (d : Rat) (p : Nat) :
    stockQty (incStock l pid d) p = stockQty l p + (if p = pid then d else 0) := by
  unfold incStock
  cases h : findStock l pid with
  | some s =>
      unfold stockQty
      rw [findStock_setStockQty]
      cases h2 : findStock l p with
      | none =>
          by_cases hp : p = pid
          · rw [hp] at h2
            rw [h2] at h
            exact Option.noConfusion h
          · simp [hp]
      | some t =>
          have ht : t.pid = p := findStock_pid h2
          by_cases hp : p = pid
          · have h2' : findStock l pid = some t := by rw [← hp]; exact h2
            rw [h2'] at h
            have hst : t = s := Option.some.inj h
            have hspid : s.pid = pid := by
              rw [← hst, ht]
              exact hp
            simp [hst, hspid, hp]
          · have hnp : ¬ t.pid = pid := by
              rw [ht]
              exact hp
            simp [hnp, hp]
  | none =>
      unfold stockQty
      rw [findStock_append_one]
      by_cases hp : p = pid
      · have h' : findStock l p = none := by rw [hp]; exact h
        rw [h']
        simp [hp]
      · have hne : ((⟨pid, d⟩ : Stock).pid == p) = false := by
          simp only [beq_eq_false_iff_ne, ne_eq]
          exact fun hc => hp hc.symm
        cases h2 : findStock l p <;> simp [hp, hne]

/-- Appending one movement row shifts one product's signed sum by that row's
signed quantity. -/
theorem movementSum_append (l : List StockMovement) (m : StockMovement) (p : Nat) :
    movementSum (l ++ [m]) p =
      movementSum l p + (if m.pid = p then signedQty m else 0) := by
  unfold movementSum
  rw [List.filter_append, List.map_append, List.sum_append]
  by_cases h : m.pid = p <;> simp [List.filter_cons, h]

/-- A product mentioned by no movement row has signed sum `0`. -/
theorem movementSum_eq_zero {l : List StockMovement} {p : Nat}
    (h : ∀ m ∈ l, m.pid ≠ p) : movementSum l p = 0 := by
  unfold movementSum
  have : l.filter (fun m => m.pid == p) = [] := by
    rw [List.filter_eq_nil_iff]
    intro m hm
    simpa using h m hm
  simp [this]

/-- A product mentioned by no stock row has quantity `0`. -/
theorem stockQty_eq_zero {l : List Stock} {p : Nat}
    (h : ∀ s ∈ l, s.pid ≠ p) : stockQty l p = 0 := by
  unfold stockQty findStock
  have : l.find? (fun s => s.pid == p) = none := by
    rw [List.find?_eq_none]
    intro s hs
    simpa using h s hs
  rw [this]

/-! ## Reachable states -/

/-- A product id used by no stock row and no movement row yet: the freshness
the database guarantees for the primary key of a newly created product. -/
def FreshPid (db : DB) (pid : Nat) : Prop :=
  (∀ s ∈ db.stocks, s.pid ≠ pid) ∧ (∀ m ∈ db.movements, m.pid ≠ pid)

/-- One committed operation, covering every handler of the embedding that can
touch the stock ledger (plus the purchase-order setup handlers, which cannot). -/
inductive LedgerStep : DB → DB → Prop
  | product {db : DB} {pid : Nat} {cost init : Rat} (h : FreshPid db pid) :
      LedgerStep db (createProduct db pid cost init)
  | sale {db : DB} {inp : SaleInput} : LedgerStep db (createSale db inp).1
  | salesReturn {db : DB} {rid sid : Nat} {items : List ReturnItemInput} :
      LedgerStep db (createSalesReturn db rid sid items).1
  | adjust {db : DB} {pid : Nat} {adj : Rat} : LedgerStep db (adjustStock db pid adj).1
  | purchase {db : DB} {poId : Nat} {items : List POItemInput} :
      LedgerStep db (createPurchaseOrder db poId items).1
  | poStatus {db : DB} {poId : Nat} {st : POStatus} :
      LedgerStep db (updatePOStatus db poId st).1
  | receive {db : DB} {poId : Nat} {lines : List RecvLine} :
      LedgerStep db (receivePO db poId lines).1
  | delete {db : DB} {sid : Nat} : LedgerStep db (deleteSale db sid).1

/-- States reachable from the empty database by committed operations. -/
inductive Reachable : DB → Prop
  | empty : Reachable DB.empty
  | step {db db' : DB} : Reachable db → LedgerStep db db' → Reachable db'

/-- The subset of the operations that write a `StockMovement` row for every
stock mutation: product creation, stock adjustment and purchase-order
receiving (plus the purchase-order setup handlers, which touch neither stocks
nor movements). -/
inductive ConsStep : DB → DB → Prop
  | product {db : DB} {pid : Nat} {cost init : Rat} (h : FreshPid db pid) :
      ConsStep db (createProduct db pid cost init)
  | adjust {db : DB} {pid : Nat} {adj : Rat} : ConsStep db (adjustStock db pid adj).1
  | purchase {db : DB} {poId : Nat} {items : List POItemInput} :
      ConsStep db (createPurchaseOrder db poId items).1
  | poStatus {db : DB} {poId : Nat} {st : POStatus} :
      ConsStep db (updatePOStatus db poId st).1
  | receive {db : DB} {poId : Nat} {lines : List RecvLine} :
      ConsStep db (receivePO db poId lines).1

/-- States reachable using only the movement-writing operations. -/
inductive ConsReachable : DB → Prop
  | empty : ConsReachable DB.empty
  | step {db db' : DB} : ConsReachable db → ConsStep db db' → ConsReachable db'

/-! ## The audit-trail invariant on the movement-writing operations -/

/-- Product creation preserves the audit-trail equality (fresh id). -/
theorem ledgerInv_createProduct {db : DB} {pid : Nat} {cost init : Rat}
    (hf : FreshPid db pid)
    (h : ∀ p, stockQty db.stocks p = movementSum db.movements p) :
    ∀ p, stockQty (createProduct db pid cost init).stocks p
      = movementSum (createProduct db pid cost init).movements p := by
  intro p
  unfold createProduct
  by_cases h0 : init ≠ 0
  · rw [if_pos h0]
    dsimp only
    rw [movementSum_append]
    unfold stockQty
    rw [findStock_append_one]
    by_cases hp : pid = p
    · have hnone : findStock db.stocks p = none := by
        unfold findStock
        rw [List.find?_eq_none]
        intro s hs
        simp only [beq_iff_eq]
        rw [← hp]
        exact hf.1 s hs
      have hzero : movementSum db.movements p = 0 := by
        apply movementSum_eq_zero
        intro m hm
        rw [← hp]
        exact hf.2 m hm
      rw [hnone, hzero]
      have hc : ((⟨pid, init⟩ : Stock).pid == p) = true := by simp [hp]
      rw [hc]
      simp [hp, signedQty]
    · have hc : ((⟨pid, init⟩ : Stock).pid == p) = false := by simp [hp]
      rw [hc]
      cases h2 : findStock db.stocks p with
      | some s =>
          have hq := h p
          unfold stockQty at hq
          rw [h2] at hq
          simpa [hp] using hq
      | none =>
          have hq := h p
          unfold stockQty at hq
          rw [h2] at hq
          simpa [hp] using hq
  · rw [if_neg h0]
    exact h p

/-- Stock adjustment preserves the audit-trail equality: it adds its signed
delta to both the stock quantity and (through the ADJ row) the signed sum. -/
theorem ledgerInv_adjustStock {db : DB} {pid : Nat} {adj : Rat}
    (h : ∀ p, stockQty db.stocks p = movementSum db.movements p) :
    ∀ p, stockQty (adjustStock db pid adj).1.stocks p
      = movementSum (adjustStock db pid adj).1.movements p := by
  intro p
  unfold adjustStock
  by_cases h0 : adj = 0
  · rw [if_pos h0]
    exact h p
  · rw [if_neg h0]
    cases hf : findProduct db.products pid with
    | none => exact h p
    | some prod =>
        dsimp only
        rw [stockQty_incStock, movementSum_append]
        by_cases hp : p = pid
        · rw [if_pos hp, if_pos hp.symm, h p]
          rfl
        · rw [if_neg hp, if_neg (fun hc => hp hc.symm), h p]

/-- Each line of the receiving loop adds its quantity to both the product's
stock and (through the IN row) the signed sum. -/
theorem ledgerInv_receiveLoop (poId : Nat) :
    ∀ (lines : List RecvLine) (db : DB),
      (∀ p, stockQty db.stocks p = movementSum db.movements p) →
      ∀ p, stockQty (receiveLoop db poId lines).1.stocks p
        = movementSum (receiveLoop db poId lines).1.movements p := by
  intro lines
  induction lines with
  | nil =>
      intro db h p
      exact h p
  | cons l rest ih =>
      intro db h p
      unfold receiveLoop
      cases hf : findPOItem db.pos poId l.itemId with
      | none => exact h p
      | some item =>
          dsimp only
          by_cases hg : item.quantity - item.receivedQuantity < l.receivedQuantity
          · rw [if_pos hg]
            exact h p
          · rw [if_neg hg]
            apply ih
            intro p'
            dsimp only
            rw [stockQty_incStock, movementSum_append]
            by_cases hp : p' = item.pid
            · rw [if_pos hp, if_pos hp.symm, h p']
              rfl
            · rw [if_neg hp, if_neg (fun hc => hp hc.symm), h p']

/-- Purchase-order receiving preserves the audit-trail equality: the final
status write touches neither stocks nor movements. -/
theorem ledgerInv_receivePO {db : DB} {poId : Nat} {lines : List RecvLine}
    (h : ∀ p, stockQty db.stocks p = movementSum db.movements p) :
    ∀ p, stockQty (receivePO db poId lines).1.stocks p
      = movementSum (receivePO db poId lines).1.movements p := by
  intro p
  unfold receivePO
  by_cases he : lines.isEmpty = true
  · simp only [he, if_true]
    exact h p
  · simp only [he, if_false]
    cases hf : findPO db.pos poId with
    | none => exact h p
    | some po =>
        dsimp only
        by_cases h1 : po.status = POStatus.RECEIVED
        · rw [if_pos h1]
          exact h p
        · rw [if_neg h1]
          by_cases h2 : po.status = POStatus.CANCELLED
          · rw [if_pos h2]
            exact h p
          · rw [if_neg h2]
            have hloop := ledgerInv_receiveLoop poId lines db h
            by_cases hok : (receiveLoop db poId lines).2 = true
            · simp only [hok, if_true]
              cases hpo1 : findPO (receiveLoop db poId lines).1.pos poId with
              | none => exact hloop p
              | some po1 =>
                  dsimp only
                  by_cases hall :
                      po1.items.all (fun it => it.quantity ≤ it.receivedQuantity) = true
                  · simp only [hall, if_true]
                    exact hloop p
                  · simp only [hall, if_false]
                    exact hloop p
            · simp only [hok, if_false]
              exact hloop p

/-- Purchase-order status updates preserve the audit-trail equality. -/
theorem ledgerInv_updatePOStatus {db : DB} {poId : Nat} {st : POStatus}
    (h : ∀ p, stockQty db.stocks p = movementSum db.movements p) :
    ∀ p, stockQty (updatePOStatus db poId st).1.stocks p
      = movementSum (updatePOStatus db poId st).1.movements p := by
  intro p
  unfold updatePOStatus
  cases hf : findPO db.pos poId with
  | none => exact h p
  | some po =>
      dsimp only
      by_cases h1 : po.status = POStatus.RECEIVED
      · rw [if_pos h1]
        exact h p
      · rw [if_neg h1]
        by_cases h2 : po.status = POStatus.CANCELLED
        · rw [if_pos h2]
          exact h p
        · rw [if_neg h2]
          exact h p

/-- Purchase-order creation preserves the audit-trail equality. -/
theorem ledgerInv_createPurchaseOrder {db : DB} {poId : Nat} {items : List POItemInput}
    (h : ∀ p, stockQty db.stocks p = movementSum db.movements p) :
    ∀ p, stockQty (createPurchaseOrder db poId items).1.stocks p
      = movementSum (createPurchaseOrder db poId items).1.movements p := by
  intro p
  unfold createPurchaseOrder
  by_cases he : items.isEmpty = true
  · simp only [he, if_true]
    exact h p
  · simp only [he, if_false]
    exact h p

/-- On the movement-writing operations alone, every reachable state satisfies
the audit-trail equality for every product. -/
theorem consReachable_ledgerInv {db : DB} (h : ConsReachable db) :
    ∀ p, stockQty db.stocks p = movementSum db.movements p := by
  induction h with
  | empty =>
      intro p
      rfl
  | step _ hs ih =>
      cases hs with
      | product hf => exact ledgerInv_createProduct hf ih
      | adjust => exact ledgerInv_adjustStock ih
      | purchase => exact ledgerInv_createPurchaseOrder ih
      | poStatus => exact ledgerInv_updatePOStatus ih
      | receive => exact ledgerInv_receivePO ih

/-! ## Claim C1 -/

/-- C1 (counterexample): a reachable state violating the claimed audit-trail
equality.  Create a product with initial stock 10 (one IN movement of 10),
then commit a sale of 3 units: the stock drops to 7 but no OUT movement is
written, so the signed movement sum stays 10. -/
theorem C1_counterexample :
    Reachable ((createSale (createProduct DB.empty 1 5 10)
        ⟨1, [⟨1, 3, 8, 0⟩], 0⟩).1) ∧
    stockQty ((createSale (createProduct DB.empty 1 5 10)
        ⟨1, [⟨1, 3, 8, 0⟩], 0⟩).1).stocks 1
      ≠ movementSum ((createSale (createProduct DB.empty 1 5 10)
        ⟨1, [⟨1, 3, 8, 0⟩], 0⟩).1).movements 1 := by
  constructor
  · exact Reachable.step
      (Reachable.step Reachable.empty
        (LedgerStep.product (by constructor <;> intro x hx <;> simp [DB.empty] at hx)))
      LedgerStep.sale
  · decide

/-- C1 (amended): the audit-trail equality `Stock.quantity = sum of signed
StockMovement quantities` holds in every state reachable through the
operations that write movement rows — product creation, stock adjustment,
purchase-order creation, purchase-order status update and purchase-order
receiving.  It fails for sale creation, sales-return creation and sale
deletion, which mutate stock quantities without writing any movement row. -/
theorem C1_audit_trail_on_movement_writing_ops {db : DB} (h : ConsReachable db)
    (pid : Nat) : stockQty db.stocks pid = movementSum db.movements pid :=
  consReachable_ledgerInv h pid

/-- Witness for C1 (amended): the equality at a concrete reachable state, a
product created with initial stock 10 then adjusted by -3. -/
theorem C1_audit_trail_on_movement_writing_ops_witness :
    stockQty ((adjustStock (createProduct DB.empty 1 5 10) 1 (-3)).1).stocks 1
      = movementSum ((adjustStock (createProduct DB.empty 1 5 10) 1 (-3)).1).movements 1 :=
  C1_audit_trail_on_movement_writing_ops
    (ConsReachable.step
      (ConsReachable.step ConsReachable.empty
        (ConsStep.product (by constructor <;> intro x hx <;> simp [DB.empty] at hx)))
      ConsStep.adjust)
    1

/-! ## Claim C2 -/

/-- C2: a sale-creation request in which some line item's quantity exceeds
that product's available stock fails serializer validation — which runs
entirely before any write — and leaves the whole database unchanged: no sale
header, no sale item, no stock decrement, no movement row. -/
theorem C2_insufficient_stock_rejected {db : DB} {inp : SaleInput}
    (h : ∃ it ∈ inp.items, ∃ s, findStock db.stocks it.pid = some s ∧
      s.quantity < it.quantity) :
    createSale db inp = (db, false) := by
  unfold createSale
  have hall : ¬ (inp.items.all (validSaleItem db.stocks) = true) := by
    intro hcontra
    rcases h with ⟨it, hmem, s, hs, hlt⟩
    have hv := List.all_eq_true.mp hcontra it hmem
    unfold validSaleItem at hv
    rw [hs] at hv
    simp at hv
    exact absurd hlt (not_lt.mpr hv)
  rw [if_neg hall]

/-- Witness for C2: requesting 11 units with 10 on hand changes nothing. -/
theorem C2_insufficient_stock_rejected_witness :
    createSale (createProduct DB.empty 1 5 10) ⟨1, [⟨1, 11, 2, 0⟩], 0⟩
      = (createProduct DB.empty 1 5 10, false) :=
  C2_insufficient_stock_rejected
    ⟨⟨1, 11, 2, 0⟩, by decide, ⟨1, 10⟩, by decide, by decide⟩

/-! ## Claim C3 -/

/-- All stock rows hold a nonnegative quantity. -/
def NonnegStocks (l : List Stock) : Prop :=
  ∀ s ∈ l, 0 ≤ s.quantity

/-- Writing a nonnegative quantity into one row keeps all rows nonnegative. -/
theorem nonnegStocks_setStockQty {l : List Stock} {pid : Nat} {q : Rat}
    (h : NonnegStocks l) (hq : 0 ≤ q) : NonnegStocks (setStockQty l pid q) := by
  intro s hs
  unfold setStockQty at hs
  rcases List.mem_map.mp hs with ⟨t, ht, rfl⟩
  by_cases h1 : t.pid = pid
  · simp [h1, hq]
  · simpa [h1] using h t ht

/-- The sale stock loop never persists a negative quantity: a decrement whose
result would be negative is not written (the loop stops there). -/
theorem nonnegStocks_saleStockLoop :
    ∀ (items : List SaleItem) (l : List Stock),
      NonnegStocks l → NonnegStocks (saleStockLoop l items).1 := by
  intro items
  induction items with
  | nil =>
      intro l h
      exact h
  | cons it rest ih =>
      intro l h
      unfold saleStockLoop
      cases hf : findStock l it.pid with
      | none => exact h
      | some s =>
          dsimp only
          by_cases hq : s.quantity - it.quantity < 0
          · rw [if_pos hq]
            exact h
          · rw [if_neg hq]
            exact ih _ (nonnegStocks_setStockQty h (not_lt.mp hq))

/-- Sale creation keeps all committed stock quantities nonnegative. -/
theorem nonnegStocks_createSale (db : DB) (inp : SaleInput)
    (h : NonnegStocks db.stocks) : NonnegStocks (createSale db inp).1.stocks := by
  unfold createSale
  by_cases hv : inp.items.all (validSaleItem db.stocks) = true
  · rw [if_pos hv]
    exact nonnegStocks_saleStockLoop _ _ h
  · rw [if_neg hv]
    exact h

/-- C3 (counterexample): with 3 units on hand, a manual adjustment of -5
commits: the request succeeds, quantity -2 is persisted (negative), and an ADJ
movement row is written — the operation does not fail. -/
theorem C3_counterexample :
    (adjustStock (createProduct DB.empty 1 5 3) 1 (-5)).2 = true ∧
    stockQty ((adjustStock (createProduct DB.empty 1 5 3) 1 (-5)).1).stocks 1 = -2 ∧
    stockQty ((adjustStock (createProduct DB.empty 1 5 3) 1 (-5)).1).stocks 1 < 0 ∧
    ((adjustStock (createProduct DB.empty 1 5 3) 1 (-5)).1).movements.length = 2 := by
  decide

/-- C3 (amended): the sale (OUT) path never persists a negative quantity —
from an all-nonnegative stock table, every committed state after sale creation
is all-nonnegative — but a manual stock adjustment applies its delta with no
guard at all: for any nonzero adjustment on an existing product the request
succeeds and persists `old + adjustment` (together with an ADJ movement row),
even when the result is negative. -/
theorem C3_nonnegativity_out_path_only :
    (∀ (db : DB) (inp : SaleInput), NonnegStocks db.stocks →
      NonnegStocks (createSale db inp).1.stocks) ∧
    (∀ (db : DB) (pid : Nat) (adj : Rat) (prod : Product), adj ≠ 0 →
      findProduct db.products pid = some prod →
      (adjustStock db pid adj).2 = true ∧
      stockQty (adjustStock db pid adj).1.stocks pid = stockQty db.stocks pid + adj ∧
      (adjustStock db pid adj).1.movements
        = db.movements ++ [⟨pid, .ADJ, adj, prod.costPrice, .adjustTag⟩]) := by
  constructor
  · exact nonnegStocks_createSale
  · intro db pid adj prod h0 hfind
    unfold adjustStock
    rw [if_neg h0, hfind]
    dsimp only
    refine ⟨rfl, ?_, rfl⟩
    rw [stockQty_incStock]
    simp

/-- Witness for C3 (amended): both conjuncts at a concrete state — a sale in
an all-nonnegative table, and an adjustment of -5 on a product with stock 3. -/
theorem C3_nonnegativity_out_path_only_witness :
    NonnegStocks ((createSale (createProduct DB.empty 1 5 3)
        ⟨1, [⟨1, 2, 4, 0⟩], 0⟩).1).stocks ∧
    ((adjustStock (createProduct DB.empty 1 5 3) 1 (-5)).2 = true ∧
      stockQty ((adjustStock (createProduct DB.empty 1 5 3) 1 (-5)).1).stocks 1
        = stockQty (createProduct DB.empty 1 5 3).stocks 1 + (-5) ∧
      ((adjustStock (createProduct DB.empty 1 5 3) 1 (-5)).1).movements
        = (createProduct DB.empty 1 5 3).movements
            ++ [⟨1, .ADJ, -5, 5, .adjustTag⟩]) :=
  ⟨C3_nonnegativity_out_path_only.1 (createProduct DB.empty 1 5 3)
      ⟨1, [⟨1, 2, 4, 0⟩], 0⟩ (by intro s hs; fin_cases hs; decide),
    C3_nonnegativity_out_path_only.2 (createProduct DB.empty 1 5 3) 1 (-5) ⟨1, 5⟩
      (by decide) (by decide)⟩

/-! ## Claims C4 and C5 -/

/-- Updating a sale found by id makes the subsequent lookup return the new row
(when the new row keeps the id). -/
theorem findSale_updateSale {l : List Sale} {sid : Nat} {s : Sale}
    (hfind : findSale l sid = some s) {s' : Sale} (hid : s'.saleId = sid) :
    findSale (updateSale l sid s') sid = some s' := by
  induction l with
  | nil =>
      unfold findSale at hfind
      simp at hfind
  | cons x t ih =>
      unfold findSale updateSale at *
      rw [List.map_cons, List.find?_cons]
      rw [List.find?_cons] at hfind
      have hhead : ((if (x.saleId == sid) = true then s' else x).saleId == sid)
          = (x.saleId == sid) := by
        by_cases hc : x.saleId = sid <;> simp [hc, hid]
      rw [hhead]
      cases hx : (x.saleId == sid) with
      | true => rfl
      | false =>
          rw [hx] at hfind
          exact ih hfind

/-- Demo state for the payment claims: one sale of total 100, nothing paid. -/
def payDemo : DB :=
  { DB.empty with sales := [⟨1, 100, 0, 0, 100, 0, .PENDING, []⟩] }

/-- C4 (counterexample): a payment of -5 against a sale with balance 100 is
accepted — there is no positivity check — and drives `paid_amount` to -5
while the claim requires rejection with `paid_amount` unchanged. -/
theorem C4_counterexample :
    (createPayment payDemo 1 (-5)).2 = true ∧
    (findSale (createPayment payDemo 1 (-5)).1.sales 1).map Sale.paidAmount
      = some (-5) ∧
    (createPayment payDemo 1 0).2 = true := by
  decide

/-- C4 (amended): the only amount check is against the balance: a payment
against an existing sale is rejected — leaving the database unchanged — iff
its amount exceeds `balance_due`; any amount at most the balance, including
zero and negative amounts, is accepted, appends the payment row, and adds the
amount to `paid_amount` with the status recomputed. -/
theorem C4_payment_balance_check_only {db : DB} {sid : Nat} {amount : Rat}
    {s : Sale} (hfind : findSale db.sales sid = some s) :
    (s.balanceDue < amount → createPayment db sid amount = (db, false)) ∧
    (amount ≤ s.balanceDue →
      (createPayment db sid amount).2 = true ∧
      findSale (createPayment db sid amount).1.sales sid
        = some { s with
            paidAmount := s.paidAmount + amount,
            paymentStatus := payStatusAfter s.total (s.paidAmount + amount)
              s.paymentStatus } ∧
      (createPayment db sid amount).1.payments = db.payments ++ [⟨sid, amount⟩]) := by
  constructor
  · intro hover
    unfold createPayment
    rw [hfind]
    dsimp only
    rw [if_pos hover]
  · intro hle
    unfold createPayment
    rw [hfind]
    dsimp only
    rw [if_neg (not_lt.mpr hle)]
    refine ⟨rfl, ?_, rfl⟩
    apply findSale_updateSale hfind
    show s.saleId = sid
    exact findSale_sid hfind

/-- Witness for C4 (amended): both directions at the demo sale. -/
theorem C4_payment_balance_check_only_witness :
    (createPayment payDemo 1 101 = (payDemo, false)) ∧
    ((createPayment payDemo 1 40).2 = true ∧
      findSale (createPayment payDemo 1 40).1.sales 1
        = some { saleId := 1, subtotal := 100, discountAmount := 0, taxAmount := 0,
                 total := 100, paidAmount := 0 + 40,
                 paymentStatus := payStatusAfter 100 (0 + 40) .PENDING, items := [] } ∧
      (createPayment payDemo 1 40).1.payments = payDemo.payments ++ [⟨1, 40⟩]) :=
  have hf : findSale payDemo.sales 1
      = some ⟨1, 100, 0, 0, 100, 0, .PENDING, []⟩ := by decide
  ⟨(C4_payment_balance_check_only hf).1 (by decide),
    (C4_payment_balance_check_only hf).2 (by decide)⟩

/-- C5: on every accepted payment the sale's `paid_amount` grows by exactly
the payment amount and its status becomes the pure function of the amounts —
PAID when `paid_amount >= total`, else PARTIAL when `paid_amount > 0`, else
the previous status (PENDING stays PENDING); and on every accepted expense
payment the expense's `paid_amount` is recomputed as the sum of all of its
payment rows with the analogous PAID / PARTIALLY_PAID / unchanged rule. -/
theorem C5_payment_status_recompute {db : DB} {sid : Nat} {amount : Rat}
    {s : Sale} (hfind : findSale db.sales sid = some s)
    (hok : amount ≤ s.balanceDue)
    {e : Expense} {pays : List ExpensePayment} {eamount : Rat}
    (heok : e.paidAmount + eamount ≤ e.totalAmount) :
    ((createPayment db sid amount).2 = true ∧
      findSale (createPayment db sid amount).1.sales sid
        = some { s with
            paidAmount := s.paidAmount + amount,
            paymentStatus := payStatusAfter s.total (s.paidAmount + amount)
              s.paymentStatus }) ∧
    ((applyExpensePayment e pays eamount).2 = true ∧
      (applyExpensePayment e pays eamount).1.2 = pays ++ [⟨eamount⟩] ∧
      (applyExpensePayment e pays eamount).1.1.paidAmount
        = (((applyExpensePayment e pays eamount).1.2).map (fun p => p.amount)).sum ∧
      (applyExpensePayment e pays eamount).1.1.status
        = expStatusAfter e.totalAmount
            ((((applyExpensePayment e pays eamount).1.2).map (fun p => p.amount)).sum)
            e.status) := by
  constructor
  · unfold createPayment
    rw [hfind]
    dsimp only
    rw [if_neg (not_lt.mpr hok)]
    refine ⟨rfl, ?_⟩
    apply findSale_updateSale hfind
    show s.saleId = sid
    exact findSale_sid hfind
  · unfold applyExpensePayment
    rw [if_neg (not_lt.mpr heok)]
    exact ⟨rfl, rfl, rfl, rfl⟩

/-- Witness for C5: a payment of 40 against the demo sale and an expense
payment of 40 against an expense of total 110. -/
theorem C5_payment_status_recompute_witness :
    (((createPayment payDemo 1 40).2 = true ∧
      findSale (createPayment payDemo 1 40).1.sales 1
        = some { saleId := 1, subtotal := 100, discountAmount := 0, taxAmount := 0,
                 total := 100, paidAmount := 0 + 40,
                 paymentStatus := payStatusAfter 100 (0 + 40) .PENDING,
                 items := [] }) ∧
    ((applyExpensePayment ⟨100, 10, 110, 0, .PENDING⟩ [] 40).2 = true ∧
      (applyExpensePayment ⟨100, 10, 110, 0, .PENDING⟩ [] 40).1.2 = [] ++ [⟨40⟩] ∧
      (applyExpensePayment ⟨100, 10, 110, 0, .PENDING⟩ [] 40).1.1.paidAmount
        = (((applyExpensePayment ⟨100, 10, 110, 0, .PENDING⟩ [] 40).1.2).map
            (fun p => p.amount)).sum ∧
      (applyExpensePayment ⟨100, 10, 110, 0, .PENDING⟩ [] 40).1.1.status
        = expStatusAfter 110
            ((((applyExpensePayment ⟨100, 10, 110, 0, .PENDING⟩ [] 40).1.2).map
              (fun p => p.amount)).sum)
            .PENDING)) :=
  have hf : findSale payDemo.sales 1
      = some ⟨1, 100, 0, 0, 100, 0, .PENDING, []⟩ := by decide
  C5_payment_status_recompute hf (by decide) (by decide)

/-! ## Claim C6 -/

/-- Every purchase-order item has been received at most up to its ordered
quantity. -/
def RecvWithinOrdered (pos : List PurchaseOrder) : Prop :=
  ∀ po ∈ pos, ∀ it ∈ po.items, it.receivedQuantity ≤ it.quantity

/-- Adding a received quantity to the item the guard was checked on keeps all
items within their ordered quantities. -/
theorem recvItems_pres :
    ∀ (items : List POItem) (iid : Nat) (q : Rat) (item : POItem),
      items.find? (fun it => it.itemId == iid) = some item →
      (∀ it ∈ items, it.receivedQuantity ≤ it.quantity) →
      item.receivedQuantity + q ≤ item.quantity →
      ∀ it ∈ recvItems items iid q, it.receivedQuantity ≤ it.quantity := by
  intro items
  induction items with
  | nil =>
      intro iid q item hfind hin hq it hmem
      simp [recvItems] at hmem
  | cons x t ih =>
      intro iid q item hfind hin hq it hmem
      rw [List.find?_cons] at hfind
      unfold recvItems at hmem
      by_cases hx : (x.itemId == iid) = true
      · rw [if_pos hx] at hmem
        rw [hx] at hfind
        have hxi : x = item := Option.some.inj hfind
        rcases List.mem_cons.mp hmem with h1 | h2
        · rw [h1]
          show x.receivedQuantity + q ≤ x.quantity
          rw [hxi]
          exact hq
        · exact hin it (List.mem_cons_of_mem _ h2)
      · rw [if_neg hx] at hmem
        have hx' : (x.itemId == iid) = false := by simpa using hx
        rw [hx'] at hfind
        rcases List.mem_cons.mp hmem with h1 | h2
        · rw [h1]
          exact hin x (List.mem_cons_self _ _)
        · exact ih iid q item hfind
            (fun y hy => hin y (List.mem_cons_of_mem _ hy)) hq it h2

/-- A by-primary-key purchase-order update preserves any per-order property
that the rewriting function preserves on the row the lookup returns. -/
theorem updatePO_pres :
    ∀ (l : List PurchaseOrder) (poId : Nat) (f : PurchaseOrder → PurchaseOrder)
      (P : PurchaseOrder → Prop),
      (∀ po ∈ l, P po) →
      (∀ po, findPO l poId = some po → P (f po)) →
      ∀ po ∈ updatePO l poId f, P po := by
  intro l
  induction l with
  | nil =>
      intro poId f P hl hf po hmem
      simp [updatePO] at hmem
  | cons x t ih =>
      intro poId f P hl hf po hmem
      unfold updatePO at hmem
      by_cases hx : (x.poId == poId) = true
      · rw [if_pos hx] at hmem
        rcases List.mem_cons.mp hmem with h1 | h2
        · rw [h1]
          apply hf
          unfold findPO
          rw [List.find?_cons, hx]
        · exact hl po (List.mem_cons_of_mem _ h2)
      · rw [if_neg hx] at hmem
        have hx' : (x.poId == poId) = false := by simpa using hx
        rcases List.mem_cons.mp hmem with h1 | h2
        · rw [h1]
          exact hl x (List.mem_cons_self _ _)
        · refine ih poId f P (fun po' hpo' => hl po' (List.mem_cons_of_mem _ hpo')) ?_ po h2
          intro po' hpo'
          apply hf
          unfold findPO
          rw [List.find?_cons, hx']
          exact hpo'

/-- Each line of the receiving loop keeps every item within its ordered
quantity: the line's guard bounds exactly the row that is incremented. -/
theorem recvWithin_receiveLoop (poId : Nat) :
    ∀ (lines : List RecvLine) (db : DB),
      RecvWithinOrdered db.pos →
      RecvWithinOrdered (receiveLoop db poId lines).1.pos := by
  intro lines
  induction lines with
  | nil =>
      intro db h
      exact h
  | cons l rest ih =>
      intro db h
      unfold receiveLoop
      cases hf : findPOItem db.pos poId l.itemId with
      | none => exact h
      | some item =>
          dsimp only
          by_cases hg : item.quantity - item.receivedQuantity < l.receivedQuantity
          · rw [if_pos hg]
            exact h
          · rw [if_neg hg]
            apply ih
            show ∀ po ∈ updatePO db.pos poId
              (fun po => { po with items := recvItems po.items l.itemId l.receivedQuantity }),
              ∀ it ∈ po.items, it.receivedQuantity ≤ it.quantity
            apply updatePO_pres db.pos poId _ _ h
            intro po' hpo'
            unfold findPOItem at hf
            rw [hpo'] at hf
            have hitem : po'.items.find? (fun x => x.itemId == l.itemId) = some item := hf
            have hbound : item.receivedQuantity + l.receivedQuantity ≤ item.quantity := by
              have := not_lt.mp hg
              linarith
            exact recvItems_pres po'.items l.itemId l.receivedQuantity item hitem
              (h po' (List.mem_of_find?_eq_some hpo')) hbound

/-- The whole receiving handler keeps every item within its ordered quantity;
the final status write does not touch the items. -/
theorem recvWithin_receivePO {db : DB} {poId : Nat} {lines : List RecvLine}
    (h : RecvWithinOrdered db.pos) :
    RecvWithinOrdered (receivePO db poId lines).1.pos := by
  unfold receivePO
  by_cases he : lines.isEmpty = true
  · simp only [he, if_true]
    exact h
  · simp only [he, if_false]
    cases hfpo : findPO db.pos poId with
    | none => exact h
    | some po =>
        dsimp only
        by_cases h1 : po.status = POStatus.RECEIVED
        · rw [if_pos h1]
          exact h
        · rw [if_neg h1]
          by_cases h2 : po.status = POStatus.CANCELLED
          · rw [if_pos h2]
            exact h
          · rw [if_neg h2]
            have hloop := recvWithin_receiveLoop poId lines db h
            by_cases hok : (receiveLoop db poId lines).2 = true
            · simp only [hok, if_true]
              cases hpo1 : findPO (receiveLoop db poId lines).1.pos poId with
              | none => exact hloop
              | some po1 =>
                  dsimp only
                  by_cases hall :
                      po1.items.all (fun it => it.quantity ≤ it.receivedQuantity) = true
                  · simp only [hall, if_true]
                    show ∀ po' ∈ updatePO (receiveLoop db poId lines).1.pos poId
                        (fun p => { p with status := POStatus.RECEIVED }),
                      ∀ it ∈ po'.items, it.receivedQuantity ≤ it.quantity
                    apply updatePO_pres _ _ _ _ hloop
                    intro po2 hfind2
                    exact hloop po2 (List.mem_of_find?_eq_some hfind2)
                  · simp only [hall, if_false]
                    exact hloop
            · simp only [hok, if_false]
              exact hloop

/-- Demo state for the batch-receiving claim: an ORDERED purchase order with
two items of ordered quantity 5 each, nothing received yet. -/
def poDemo : DB :=
  { DB.empty with
      products := [⟨1, 2⟩, ⟨2, 2⟩],
      pos := [⟨1, .ORDERED, 0, 0, 0, [⟨1, 1, 5, 2, 0⟩, ⟨2, 2, 5, 2, 0⟩]⟩] }

/-- C6 (counterexample): a batch whose second line over-receives returns an
error, but the first line's effects stay committed: its item's
`received_quantity` is 3, the stock rose to 3 and one IN movement was written
— the claim's "no line of that call is applied" is false. -/
theorem C6_counterexample :
    (receivePO poDemo 1 [⟨1, 3⟩, ⟨2, 7⟩]).2 = false ∧
    (findPOItem (receivePO poDemo 1 [⟨1, 3⟩, ⟨2, 7⟩]).1.pos 1 1).map
      POItem.receivedQuantity = some 3 ∧
    (findPOItem (receivePO poDemo 1 [⟨1, 3⟩, ⟨2, 7⟩]).1.pos 1 2).map
      POItem.receivedQuantity = some 0 ∧
    stockQty (receivePO poDemo 1 [⟨1, 3⟩, ⟨2, 7⟩]).1.stocks 1 = 3 ∧
    (receivePO poDemo 1 [⟨1, 3⟩, ⟨2, 7⟩]).1.movements.length = 1 := by
  decide

/-- C6 (amended): lines are validated and applied one at a time, so an
over-receiving line aborts the batch from that line on — when the FIRST line
over-receives, nothing at all is applied — while the lines before it stay
committed; the per-line guard still makes `received_quantity ≤ quantity` an
invariant of every committed state. -/
theorem C6_receive_prefix_commit :
    (∀ (db : DB) (poId : Nat) (po : PurchaseOrder) (l : RecvLine)
        (rest : List RecvLine) (item : POItem),
      findPO db.pos poId = some po →
      po.status ≠ POStatus.RECEIVED → po.status ≠ POStatus.CANCELLED →
      findPOItem db.pos poId l.itemId = some item →
      item.quantity - item.receivedQuantity < l.receivedQuantity →
      receivePO db poId (l :: rest) = (db, false)) ∧
    (∀ (db : DB) (poId : Nat) (lines : List RecvLine),
      RecvWithinOrdered db.pos →
      RecvWithinOrdered (receivePO db poId lines).1.pos) := by
  constructor
  · intro db poId po l rest item hfpo h1 h2 hitem hover
    have hloop : receiveLoop db poId (l :: rest) = (db, false) := by
      unfold receiveLoop
      rw [hitem]
      dsimp only
      rw [if_pos hover]
    unfold receivePO
    simp only [List.isEmpty_cons, if_false]
    rw [hfpo]
    dsimp only
    rw [if_neg h1, if_neg h2, hloop]
    simp
  · intro db poId lines h
    exact recvWithin_receivePO h

/-- Witness for C6 (amended): an over-receipt on the first line of the demo
order changes nothing, and the within-ordered invariant survives the partial
batch of the counterexample. -/
theorem C6_receive_prefix_commit_witness :
    receivePO poDemo 1 [⟨1, 7⟩] = (poDemo, false) ∧
    RecvWithinOrdered (receivePO poDemo 1 [⟨1, 3⟩, ⟨2, 7⟩]).1.pos :=
  ⟨C6_receive_prefix_commit.1 poDemo 1 ⟨1, .ORDERED, 0, 0, 0,
      [⟨1, 1, 5, 2, 0⟩, ⟨2, 2, 5, 2, 0⟩]⟩ ⟨1, 7⟩ [] ⟨1, 1, 5, 2, 0⟩
      (by decide) (by decide) (by decide) (by decide) (by decide),
    C6_receive_prefix_commit.2 poDemo 1 [⟨1, 3⟩, ⟨2, 7⟩]
      (by unfold RecvWithinOrdered; decide)⟩

/-! ## Claim C7 -/

/-- Receiving against a RECEIVED or CANCELLED purchase order fails before any
write: the request errors and the database is unchanged. -/
theorem receivePO_terminal {db : DB} {poId : Nat} {po : PurchaseOrder}
    {lines : List RecvLine} (hfpo : findPO db.pos poId = some po)
    (hst : po.status = POStatus.RECEIVED ∨ po.status = POStatus.CANCELLED) :
    receivePO db poId lines = (db, false) := by
  unfold receivePO
  by_cases he : lines.isEmpty = true
  · rw [if_pos he]
  · rw [if_neg he]
    rw [hfpo]
    dsimp only
    rcases hst with h | h
    · rw [if_pos h]
    · rw [h]
      rfl

/-- A status-change request against a RECEIVED or CANCELLED purchase order
fails and changes nothing. -/
theorem updatePOStatus_terminal {db : DB} {poId : Nat} {po : PurchaseOrder}
    {st : POStatus} (hfpo : findPO db.pos poId = some po)
    (hst : po.status = POStatus.RECEIVED ∨ po.status = POStatus.CANCELLED) :
    updatePOStatus db poId st = (db, false) := by
  unfold updatePOStatus
  rw [hfpo]
  dsimp only
  rcases hst with h | h
  · rw [if_pos h]
  · rw [h]
    rfl

/-- Demo state for the receiving-lifecycle claim: an ORDERED purchase order
with a single item of ordered quantity 20, nothing received yet. -/
def poLifeDemo : DB :=
  { DB.empty with
      products := [⟨1, 2⟩],
      pos := [⟨1, .ORDERED, 0, 0, 0, [⟨1, 1, 20, 3, 0⟩]⟩] }

/-- The state after receiving 12 of 20 on the demo order. -/
def poLifeDemo12 : DB := (receivePO poLifeDemo 1 [⟨1, 12⟩]).1

/-- The state after then receiving the remaining 8. -/
def poLifeDemo20 : DB := (receivePO poLifeDemo12 1 [⟨1, 8⟩]).1

/-- C7: on the 20-unit ORDERED order, receiving 12 succeeds and leaves status
ORDERED with `received_quantity` 12; the subsequent receive of 8 reaches 20
and flips the status to RECEIVED; from then on every receive attempt and
every status-change request against it fails and changes nothing — and in
general every receive or status-change against a RECEIVED or CANCELLED order
fails with the state unchanged. -/
theorem C7_po_receiving_lifecycle :
    ((receivePO poLifeDemo 1 [⟨1, 12⟩]).2 = true ∧
      (findPO poLifeDemo12.pos 1).map PurchaseOrder.status = some .ORDERED ∧
      (findPOItem poLifeDemo12.pos 1 1).map POItem.receivedQuantity = some 12 ∧
      (receivePO poLifeDemo12 1 [⟨1, 8⟩]).2 = true ∧
      (findPO poLifeDemo20.pos 1).map PurchaseOrder.status = some .RECEIVED ∧
      (findPOItem poLifeDemo20.pos 1 1).map POItem.receivedQuantity = some 20 ∧
      (∀ lines : List RecvLine, receivePO poLifeDemo20 1 lines = (poLifeDemo20, false)) ∧
      (∀ st : POStatus, updatePOStatus poLifeDemo20 1 st = (poLifeDemo20, false))) ∧
    (∀ (db : DB) (poId : Nat) (po : PurchaseOrder) (lines : List RecvLine)
        (st : POStatus),
      findPO db.pos poId = some po →
      po.status = POStatus.RECEIVED ∨ po.status = POStatus.CANCELLED →
      receivePO db poId lines = (db, false) ∧
      updatePOStatus db poId st = (db, false)) := by
  have hfin : findPO poLifeDemo20.pos 1
      = some ⟨1, .RECEIVED, 0, 0, 0, [⟨1, 1, 20, 3, 20⟩]⟩ := by decide
  refine ⟨⟨by decide, by decide, by decide, by decide, by decide, by decide, ?_, ?_⟩, ?_⟩
  · intro lines
    exact receivePO_terminal hfin (Or.inl rfl)
  · intro st
    exact updatePOStatus_terminal hfin (Or.inl rfl)
  · intro db poId po lines st hfpo hst
    exact ⟨receivePO_terminal hfpo hst, updatePOStatus_terminal hfpo hst⟩

/-- Witness for C7: the general terminal-state clause applied to the concrete
RECEIVED demo order. -/
theorem C7_po_receiving_lifecycle_witness :
    receivePO poLifeDemo20 1 [⟨1, 1⟩] = (poLifeDemo20, false) ∧
    updatePOStatus poLifeDemo20 1 POStatus.CANCELLED = (poLifeDemo20, false) :=
  C7_po_receiving_lifecycle.2 poLifeDemo20 1
    ⟨1, .RECEIVED, 0, 0, 0, [⟨1, 1, 20, 3, 20⟩]⟩ [⟨1, 1⟩] POStatus.CANCELLED
    (by decide) (Or.inl (by decide))

/-! ## Claim C8 -/

/-- Demo state for the sale-totals scenario: product A (id 1) with stock 3,
product B (id 2) with stock 1. -/
def saleTotDemo : DB := createProduct (createProduct DB.empty 1 4 3) 2 30 1

/-- The scenario request: A 3 units at 10 with 0% discount, B 1 unit at 50
with 10% discount, no sale-level discount. -/
def saleTotInput : SaleInput := ⟨1, [⟨1, 3, 10, 0⟩, ⟨2, 1, 50, 10⟩], 0⟩

/-- C8 (counterexample): on the claimed scenario the stored `tax_amount` is 0
and the stored total is 75.00, not the claimed 7.50 and 82.50: the serializer
sets `tax_amount = 0` (the 10% line is commented out in the source). -/
theorem C8_counterexample :
    (createSale saleTotDemo saleTotInput).2 = true ∧
    (findSale (createSale saleTotDemo saleTotInput).1.sales 1).map Sale.taxAmount
      = some 0 ∧
    (findSale (createSale saleTotDemo saleTotInput).1.sales 1).map Sale.total
      = some 75 ∧
    (0 : Rat) ≠ 15 / 2 ∧ (75 : Rat) ≠ 165 / 2 := by
  decide

/-- C8 (amended): on the scenario the stored item totals are 30.00 and 45.00
and the stored subtotal is 75.00 as claimed, each amount following the stated
per-item computation order, but the committed `tax_amount` is 0 (not 10%) and
the stored total is `subtotal + tax_amount - discount_amount = 75.00`. -/
theorem C8_sale_totals_scenario :
    ((createSale saleTotDemo saleTotInput).2 = true ∧
      (findSale (createSale saleTotDemo saleTotInput).1.sales 1).map
        (fun s => s.items.map SaleItem.totalAmount) = some [30, 45] ∧
      (findSale (createSale saleTotDemo saleTotInput).1.sales 1).map Sale.subtotal
        = some 75 ∧
      (findSale (createSale saleTotDemo saleTotInput).1.sales 1).map Sale.taxAmount
        = some 0 ∧
      (findSale (createSale saleTotDemo saleTotInput).1.sales 1).map Sale.total
        = some 75) ∧
    (∀ it : SaleItem, it.subtotal = it.quantity * it.unitPrice ∧
      it.discountAmount = it.subtotal * (it.discountPercentage / 100) ∧
      it.totalAmount = it.subtotal - it.discountAmount) ∧
    (∀ (s : Sale), s ∈ (createSale saleTotDemo saleTotInput).1.sales →
      s.total = s.subtotal + s.taxAmount - s.discountAmount) := by
  refine ⟨by decide, fun it => ⟨rfl, rfl, rfl⟩, ?_⟩
  intro s hs
  fin_cases hs
  decide

/-- Witness for C8 (amended): the total identity applied to the concrete sale
row the scenario commits. -/
theorem C8_sale_totals_scenario_witness :
    (⟨1, 75, 0, 0, 75, 0, .PENDING, [⟨1, 3, 10, 0⟩, ⟨2, 1, 50, 10⟩]⟩ : Sale).total
      = (⟨1, 75, 0, 0, 75, 0, .PENDING, [⟨1, 3, 10, 0⟩, ⟨2, 1, 50, 10⟩]⟩ : Sale).subtotal
        + (⟨1, 75, 0, 0, 75, 0, .PENDING, [⟨1, 3, 10, 0⟩, ⟨2, 1, 50, 10⟩]⟩ : Sale).taxAmount
        - (⟨1, 75, 0, 0, 75, 0, .PENDING, [⟨1, 3, 10, 0⟩, ⟨2, 1, 50, 10⟩]⟩ : Sale).discountAmount :=
  C8_sale_totals_scenario.2.2
    ⟨1, 75, 0, 0, 75, 0, .PENDING, [⟨1, 3, 10, 0⟩, ⟨2, 1, 50, 10⟩]⟩ (by decide)

/-! ## Claim C9 -/

/-- Per-product total of a list of (product id, quantity) pairs. -/
def pairSum (pairs : List (Nat × Rat)) (p : Nat) : Rat :=
  ((pairs.filter (fun pr => pr.1 == p)).map (fun pr => pr.2)).sum

/-- Peeling one pair off the per-product total. -/
theorem pairSum_cons (pid : Nat) (q : Rat) (rest : List (Nat × Rat)) (p : Nat) :
    pairSum ((pid, q) :: rest) p = (if p = pid then q else 0) + pairSum rest p := by
  unfold pairSum
  by_cases h : p = pid
  · simp [List.filter_cons, h]
  · have h2 : ¬ pid = p := fun hc => h hc.symm
    simp [List.filter_cons, h2, h]

/-- Updating one row's quantity does not create or remove stock rows. -/
theorem findStock_isSome_setStockQty (l : List Stock) (pid : Nat) (q : Rat)
    (p : Nat) :
    (findStock (setStockQty l pid q) p).isSome = (findStock l p).isSome := by
  rw [findStock_setStockQty]
  cases findStock l p <;> rfl

/-- When every product in the pair list has a stock row, the increment loop
succeeds and adds exactly the per-product totals. -/
theorem incStockLoop_spec :
    ∀ (pairs : List (Nat × Rat)) (l : List Stock),
      (∀ pr ∈ pairs, (findStock l pr.1).isSome = true) →
      (incStockLoop l pairs).2 = true ∧
      ∀ p, stockQty (incStockLoop l pairs).1 p = stockQty l p + pairSum pairs p := by
  intro pairs
  induction pairs with
  | nil =>
      intro l hpres
      refine ⟨rfl, fun p => ?_⟩
      simp [pairSum, incStockLoop]
  | cons pr rest ih =>
      intro l hpres
      obtain ⟨pid, q⟩ := pr
      unfold incStockLoop
      cases hf : findStock l pid with
      | none =>
          exfalso
          have hmem := hpres (pid, q) (List.mem_cons_self _ _)
          rw [hf] at hmem
          simp at hmem
      | some s =>
          dsimp only
          have hinc : setStockQty l pid (s.quantity + q) = incStock l pid q := by
            unfold incStock
            rw [hf]
          have hpres' : ∀ pr2 ∈ rest,
              (findStock (setStockQty l pid (s.quantity + q)) pr2.1).isSome = true := by
            intro pr2 h2
            rw [findStock_isSome_setStockQty]
            exact hpres pr2 (List.mem_cons_of_mem _ h2)
          obtain ⟨hok, hq⟩ := ih (setStockQty l pid (s.quantity + q)) hpres'
          refine ⟨hok, fun p => ?_⟩
          rw [hq p, hinc, stockQty_incStock, pairSum_cons]
          ring

/-- C9: deleting a sale (whose items' products all have stock rows, as sale
creation guarantees) succeeds, removes the sale with its items, its payments
and its returns with their items, adds each deleted item's quantity back to
its product's stock, and writes no StockMovement row. -/
theorem C9_delete_sale {db : DB} {sid : Nat} {s : Sale}
    (hfind : findSale db.sales sid = some s)
    (hstocks : ∀ it ∈ s.items, (findStock db.stocks it.pid).isSome = true) :
    (deleteSale db sid).2 = true ∧
    (deleteSale db sid).1.movements = db.movements ∧
    (deleteSale db sid).1.sales = db.sales.filter (fun x => x.saleId ≠ sid) ∧
    (deleteSale db sid).1.payments = db.payments.filter (fun p => p.saleId ≠ sid) ∧
    (deleteSale db sid).1.salesReturns
      = db.salesReturns.filter (fun r => r.saleId ≠ sid) ∧
    ∀ p, stockQty (deleteSale db sid).1.stocks p
      = stockQty db.stocks p
        + pairSum (s.items.map (fun it => (it.pid, it.quantity))) p := by
  unfold deleteSale
  rw [hfind]
  dsimp only
  have hpres : ∀ pr ∈ s.items.map (fun it => (it.pid, it.quantity)),
      (findStock db.stocks pr.1).isSome = true := by
    intro pr hpr
    rcases List.mem_map.mp hpr with ⟨it, hit, rfl⟩
    exact hstocks it hit
  obtain ⟨hok, hq⟩ := incStockLoop_spec _ db.stocks hpres
  exact ⟨hok, rfl, rfl, rfl, rfl, hq⟩

/-- Demo state for the deletion claim: one sale of 3 units of product 1 with
a payment and a return, a second unrelated payment, stock at 4. -/
def delDemo : DB :=
  { DB.empty with
      products := [⟨1, 2⟩],
      stocks := [⟨1, 4⟩],
      movements := [⟨1, .IN, 4, 2, .initialTag⟩],
      sales := [⟨1, 30, 0, 0, 30, 0, .PENDING, [⟨1, 3, 10, 0⟩]⟩],
      payments := [⟨1, 10⟩, ⟨2, 5⟩],
      salesReturns := [⟨1, 1, [⟨1, 1, 10⟩]⟩] }

/-- Witness for C9: the stock-restoration clause at the demo state. -/
theorem C9_delete_sale_witness :
    stockQty (deleteSale delDemo 1).1.stocks 1
      = stockQty delDemo.stocks 1
        + pairSum (([⟨1, 3, 10, 0⟩] : List SaleItem).map
            (fun it => (it.pid, it.quantity))) 1 :=
  have hf : findSale delDemo.sales 1
      = some ⟨1, 30, 0, 0, 30, 0, .PENDING, [⟨1, 3, 10, 0⟩]⟩ := by decide
  (C9_delete_sale hf (by decide)).2.2.2.2.2 1

/-! ## Claim C10 -/

/-- C10: product creation creates a `Stock` row at the supplied
`initial_stock` quantity together with exactly one IN movement carrying
`reference_number='INITIAL'` and `unit_price=product.cost_price` if and only
if the supplied `initial_stock` is nonzero; when it is omitted (default 0)
the product ends up with no stock row at all and no movement is written. -/
theorem C10_product_initial_stock (db : DB) (pid : Nat) (cost init : Rat)
    (hfresh : ∀ s ∈ db.stocks, s.pid ≠ pid) :
    (init ≠ 0 →
      findStock (createProduct db pid cost init).stocks pid = some ⟨pid, init⟩ ∧
      (createProduct db pid cost init).movements
        = db.movements ++ [⟨pid, .IN, init, cost, .initialTag⟩]) ∧
    (init = 0 →
      findStock (createProduct db pid cost init).stocks pid = none ∧
      (createProduct db pid cost init).movements = db.movements) := by
  have hnone : findStock db.stocks pid = none := by
    unfold findStock
    rw [List.find?_eq_none]
    intro s hs
    simpa using hfresh s hs
  constructor
  · intro h0
    unfold createProduct
    rw [if_pos h0]
    dsimp only
    refine ⟨?_, rfl⟩
    rw [findStock_append_one, hnone]
    simp
  · intro h0
    unfold createProduct
    rw [if_neg (not_not_intro h0)]
    exact ⟨hnone, rfl⟩

/-- Witness for C10: both directions at concrete products — one created with
initial stock 9, one with initial stock 0. -/
theorem C10_product_initial_stock_witness :
    (findStock (createProduct DB.empty 1 6 9).stocks 1 = some ⟨1, 9⟩ ∧
      (createProduct DB.empty 1 6 9).movements
        = DB.empty.movements ++ [⟨1, .IN, 9, 6, .initialTag⟩]) ∧
    (findStock (createProduct DB.empty 2 6 0).stocks 2 = none ∧
      (createProduct DB.empty 2 6 0).movements = DB.empty.movements) :=
  ⟨(C10_product_initial_stock DB.empty 1 6 9 (by decide)).1 (by decide),
    (C10_product_initial_stock DB.empty 2 6 0 (by decide)).2 (by decide)⟩
